import Mathlib

/-!
Verification development for the pre-stake-watcher exporter (`app.py`).

The program is a polling loop: it fetches a registration JSON document and a
price JSON document over HTTP, transforms them, and writes the results into
four Prometheus gauges.  This file gives a shallow embedding of the relevant
program parts:

* JSON-like Python values are the inductive `PyVal` (JSON numbers are
  modelled as integers).
* The four gauges are the record `Registry`; a gauge write is a record
  update.  Per-staker gauges (`staker_stake` with its label) are an
  association list keyed by the label value.
* Python exceptions that the code can raise or catch are `PyErr`; a code
  region that may raise is a function returning `Except PyErr _` or a
  result paired with `Option PyErr`.
* `log` calls are accumulated as a `List LogEvent`.
* The two network calls are modelled by a `NetResult` input describing the
  outcome of the underlying `requests.get` (transport error, or a status
  code together with a body; the body is `Option PyVal`, `Option.none`
  standing for a body that is not valid JSON).
-/

namespace PreStake

/-! ## Python values -/

mutual

inductive PyVal where
  | pynone : PyVal
  | pybool : Bool → PyVal
  | pyint : Int → PyVal
  | pystr : String → PyVal
  | pylist : PyListV → PyVal
  | pydict : PyDictV → PyVal
  deriving DecidableEq

inductive PyListV where
  | nil : PyListV
  | cons : PyVal → PyListV → PyListV
  deriving DecidableEq

inductive PyDictV where
  | nil : PyDictV
  | cons : String → PyVal → PyDictV → PyDictV
  deriving DecidableEq

end

def PyListV.toList : PyListV → List PyVal
  | .nil => []
  | .cons v rest => v :: rest.toList

def PyDictV.pairs : PyDictV → List (String × PyVal)
  | .nil => []
  | .cons k v rest => (k, v) :: rest.pairs

def listV : List PyVal → PyListV
  | [] => .nil
  | v :: rest => .cons v (listV rest)

def dictV : List (String × PyVal) → PyDictV
  | [] => .nil
  | (k, v) :: rest => .cons k v (dictV rest)

/-- Python truthiness (`if x:`): `None`, `False`, `0`, `""`, `[]`, `{}` are
falsy, everything else is truthy. -/
def PyVal.truthy : PyVal → Bool
  | .pynone => false
  | .pybool b => b
  | .pyint n => n != 0
  | .pystr s => s != ""
  | .pylist .nil => false
  | .pylist (.cons _ _) => true
  | .pydict .nil => false
  | .pydict (.cons _ _ _) => true

/-- First binding of a key in a Python dict (dict keys are unique in
values produced by JSON parsing). -/
def dlookup : PyDictV → String → Option PyVal
  | .nil, _ => Option.none
  | .cons k v rest, key => if k = key then some v else dlookup rest key

/-- Model of `d.get(key, default)` on a dict. -/
def dictGet (d : PyDictV) (key : String) (dflt : PyVal) : PyVal :=
  (dlookup d key).getD dflt

/-- Python exceptions relevant to this program. -/
inductive PyErr where
  | keyError : String → PyErr
  | typeError : PyErr
  | attributeError : PyErr
  | valueError : PyErr
  deriving DecidableEq

/-- Model of the subscript `x[key]` with a string key: on a dict it is the
binding or a `KeyError`; on every other value it is a `TypeError`
(`None`/ints/lists are not subscriptable by a string, string subscripts
need an integer index). -/
def pyItem : PyVal → String → Except PyErr PyVal
  | .pydict d, key =>
    match dlookup d key with
    | some v => Except.ok v
    | Option.none => Except.error (PyErr.keyError key)
  | _, _ => Except.error PyErr.typeError

/-- Numeric view used by `total_stake += stake`: Python ints (and bools,
which are ints) add to an int; any other value raises `TypeError`. -/
def toNum : PyVal → Option Int
  | .pyint n => some n
  | .pybool b => some (if b then 1 else 0)
  | _ => Option.none

/-- Model of `len(x)` / `for e in x` domains: lists iterate their elements,
strings iterate their one-character substrings, dicts iterate their keys;
every other value raises `TypeError`. -/
def pyIter : PyVal → Except PyErr (List PyVal)
  | .pylist l => Except.ok l.toList
  | .pystr s => Except.ok (s.data.map (fun c => PyVal.pystr (String.mk [c])))
  | .pydict d => Except.ok (d.pairs.map (fun kv => PyVal.pystr kv.1))
  | _ => Except.error PyErr.typeError

/-! ## Gauges, logs -/

/-- The four Prometheus gauges of `app.py`.  Gauges start at `0`;
`staker_stake` is labelled by `staker_address`, modelled as an association
list from the label value to the gauge value. -/
structure Registry where
  totalStake : Int
  stakerStake : List (PyVal × Int)
  totalStakers : Int
  currentPrice : Int
  deriving DecidableEq

def Registry.init : Registry := ⟨0, [], 0, 0⟩

/-- The log lines the program can emit, abstracted to their payload. -/
inductive LogEvent where
  | scraping : LogEvent
  | fetchError : LogEvent
  | priceError : LogEvent
  | noStakers : LogEvent
  | totals : Int → Nat → LogEvent
  | highest : Int → LogEvent
  | lowest : Int → LogEvent
  | missingKey : String → LogEvent
  | procError : LogEvent
  | currentPrice : PyVal → LogEvent
  | nextScrape : LogEvent
  deriving DecidableEq

/-- Write of the labelled gauge `staker_stake_gauge.labels(a).set(v)`:
overwrite the binding for `a` if present, otherwise append it. -/
def setStaker : List (PyVal × Int) → PyVal → Int → List (PyVal × Int)
  | [], a, v => [(a, v)]
  | (k, w) :: rest, a, v =>
    if k = a then (k, v) :: rest else (k, w) :: setStaker rest a v

def lookupStake : List (PyVal × Int) → PyVal → Option Int
  | [], _ => Option.none
  | (k, w) :: rest, a => if k = a then some w else lookupStake rest a

/-! ## DataProcessor (`process_data`, app.py lines 49-84)

The body of the `try:` block is `processStakers`/`procLoop`; it returns the
registry and logs produced up to the point where an exception escapes (if
one does), mirroring that gauge writes made before the exception remain. -/

/-- The `for staker in stakers:` loop (lines 65-69).  Each iteration reads
`staker["stake"]` (KeyError/TypeError possible), adds it to the running
total (TypeError when not a number), then writes
`staker_stake_gauge.labels(staker["address"]).set(stake)` (KeyError
possible).  Returns the registry after the writes that happened, and either
the escaping exception or the final `(total_stake, stakes)`. -/
def procLoop : List PyVal → Int → List Int → Registry →
    Registry × Except PyErr (Int × List Int)
  | [], total, stakes, reg => (reg, Except.ok (total, stakes))
  | st :: rest, total, stakes, reg =>
    match pyItem st "stake" with
    | Except.error e => (reg, Except.error e)
    | Except.ok sv =>
      match toNum sv with
      | Option.none => (reg, Except.error PyErr.typeError)
      | some s =>
        match pyItem st "address" with
        | Except.error e => (reg, Except.error e)
        | Except.ok a =>
          procLoop rest (total + s) (stakes ++ [s])
            { reg with stakerStake := setStaker reg.stakerStake a s }

/-- Lines 53-79 once `stakers = data.get("stakers", [])` has been read.
`if not stakers:` logs and returns; `total_stakers_gauge.set(len(stakers))`
runs before the per-entry loop; `max`/`min` of the collected stakes and the
`total_stake_gauge.set` run after it; the three info lines are logged last.
(`max([])` would raise `ValueError`, but that branch is unreachable: the
truthiness guard makes the iterated sequence non-empty.) -/
def processStakers (stakers : PyVal) (reg : Registry) :
    Registry × List LogEvent × Option PyErr :=
  if stakers.truthy = false then (reg, [LogEvent.noStakers], Option.none)
  else
    match pyIter stakers with
    | Except.error e => (reg, [], some e)
    | Except.ok items =>
      let reg1 := { reg with totalStakers := (items.length : Int) }
      match procLoop items 0 [] reg1 with
      | (reg2, Except.error e) => (reg2, [], some e)
      | (reg2, Except.ok (total, stakes)) =>
        match stakes with
        | [] => (reg2, [], some PyErr.valueError)
        | s :: rest =>
          ({ reg2 with totalStake := total },
           [LogEvent.totals total items.length,
            LogEvent.highest (rest.foldl max s),
            LogEvent.lowest (rest.foldl min s)],
           Option.none)

/-- The whole `try:` body of `process_data`.  `data.get(...)` raises
`AttributeError` when `data` is not a dict (lists, strings, numbers have no
`.get`). -/
def processBody (data : PyVal) (reg : Registry) :
    Registry × List LogEvent × Option PyErr :=
  match data with
  | .pydict kvs => processStakers (dictGet kvs "stakers" (PyVal.pylist .nil)) reg
  | _ => (reg, [], some PyErr.attributeError)

/-- The log line chosen by the handlers: `except KeyError` logs the missing
key, the blanket `except Exception` logs a generic processing error. -/
def errLog : PyErr → LogEvent
  | .keyError k => LogEvent.missingKey k
  | _ => LogEvent.procError

/-- `process_data` (lines 49-84): run the body; both `except` arms swallow
the exception and log, so the function always returns. -/
def process_data (data : PyVal) (reg : Registry) : Registry × List LogEvent :=
  match processBody data reg with
  | (r, logs, Option.none) => (r, logs)
  | (r, logs, some e) => (r, logs ++ [errLog e])

/-! ## Fetchers (lines 29-47) -/

/-- Outcome of an underlying `requests.get`: a transport-level failure, or a
response with a status code and a body (`Option.none` = body is not valid
JSON). -/
inductive NetResult where
  | transportError : NetResult
  | response : Nat → Option PyVal → NetResult
  deriving DecidableEq

/-- `response.raise_for_status()` raises `HTTPError` exactly for 4xx/5xx. -/
def statusRaises (status : Nat) : Bool :=
  decide (400 ≤ status) && decide (status ≤ 599)

/-- `fetch_registration_data` (lines 39-47): transport errors, `HTTPError`
from `raise_for_status`, and `JSONDecodeError` from `response.json()` are
all `requests.exceptions.RequestException` (requests ≥ 2.27), so they are
caught, logged, and turned into `None`; otherwise the parsed JSON body is
returned as-is, whatever its shape. -/
def fetch_registration_data (net : NetResult) : Option PyVal × List LogEvent :=
  match net with
  | .transportError => (Option.none, [LogEvent.fetchError])
  | .response status body =>
    if statusRaises status then (Option.none, [LogEvent.fetchError])
    else
      match body with
      | Option.none => (Option.none, [LogEvent.fetchError])
      | some v => (some v, [])

/-- `fetch_nimiq_price` (lines 29-37): same catch as above, but the success
path is `response.json().get("nimiq-2", {}).get("usd")`.  When the parsed
body (or its `"nimiq-2"` field after the `{}` default) is not a dict, the
`.get` raises `AttributeError`, which is *not* a `RequestException` and so
escapes the function. -/
def fetch_nimiq_price (net : NetResult) :
    Except PyErr (Option PyVal) × List LogEvent :=
  match net with
  | .transportError => (Except.ok Option.none, [LogEvent.priceError])
  | .response status body =>
    if statusRaises status then (Except.ok Option.none, [LogEvent.priceError])
    else
      match body with
      | Option.none => (Except.ok Option.none, [LogEvent.priceError])
      | some v =>
        match v with
        | .pydict kvs =>
          match dictGet kvs "nimiq-2" (PyVal.pydict .nil) with
          | .pydict kvs2 => (Except.ok (dlookup kvs2 "usd"), [])
          | _ => (Except.error PyErr.attributeError, [])
        | _ => (Except.error PyErr.attributeError, [])

/-! ## Scheduler cycle (`main`, lines 95-117) -/

/-- `Gauge.set(value)` converts with `float(value)`: ints and bools
succeed, containers and `None` raise `TypeError`.  (`float` of a numeric
string would succeed in Python; string-valued prices play no role in the
claims and are modelled with the `ValueError` that `float` raises on
non-numeric strings.) -/
def gaugeFloat : PyVal → Except PyErr Int
  | .pyint n => Except.ok n
  | .pybool b => Except.ok (if b then 1 else 0)
  | .pystr _ => Except.error PyErr.valueError
  | _ => Except.error PyErr.typeError

/-- The tail of one loop iteration, from `price = fetch_nimiq_price()`
onwards: `if price:` guards the gauge write and the price log; the
`Next scrape` log (line 114, immediately before the sleep) is reached only
when nothing raised. -/
def priceStage (pr : Except PyErr (Option PyVal)) (reg : Registry) :
    Registry × List LogEvent × Option PyErr :=
  match pr with
  | Except.error e => (reg, [], some e)
  | Except.ok Option.none => (reg, [LogEvent.nextScrape], Option.none)
  | Except.ok (some v) =>
    if v.truthy then
      match gaugeFloat v with
      | Except.ok n =>
        ({ reg with currentPrice := n },
         [LogEvent.currentPrice v, LogEvent.nextScrape], Option.none)
      | Except.error e => (reg, [], some e)
    else (reg, [LogEvent.nextScrape], Option.none)

/-- Lines 100-104: `if data: process_data(data)` — a `None` result or a
falsy parsed body skips processing entirely. -/
def procStep (data : Option PyVal) (reg : Registry) : Registry × List LogEvent :=
  match data with
  | some d => if d.truthy then process_data d reg else (reg, [])
  | Option.none => (reg, [])

/-- One iteration of the `while True:` loop (lines 95-117), as a function
of the two network outcomes.  The final `Option PyErr` is an exception
escaping the iteration (which would kill the loop and the process). -/
def cycle (regNet priceNet : NetResult) (reg : Registry) :
    Registry × List LogEvent × Option PyErr :=
  let fetched := fetch_registration_data regNet
  let proc := procStep fetched.1 reg
  let pricing := fetch_nimiq_price priceNet
  let staged := priceStage pricing.1 proc.1
  (staged.1,
   LogEvent.scraping :: (fetched.2 ++ proc.2 ++ pricing.2 ++ staged.2.1),
   staged.2.2)

/-! ## Configuration (lines 7-13) -/

def DEFAULT_ADDRESS : String := "NQ97+H1NR+S3X0+CVFQ+VJ9Y+9A0Y+FRQN+Q6EU+D0PL"

def DEFAULT_INTERVAL : Int := 300

/-- `address = os.getenv("NIMIQ_ADDRESS", DEFAULT_ADDRESS)` as a function
of the environment variable's value (`Option.none` = unset). -/
def address (env : Option String) : String := env.getD DEFAULT_ADDRESS

def digitsValue (cs : List Char) : Option Nat :=
  cs.foldl
    (fun acc c =>
      match acc with
      | Option.none => Option.none
      | some n => if c.isDigit then some (n * 10 + (c.toNat - 48)) else Option.none)
    (some 0)

def signedValue (cs : List Char) : Option Int :=
  match cs with
  | [] => Option.none
  | '-' :: rest =>
    if rest.isEmpty then Option.none
    else (digitsValue rest).map (fun n => -(n : Int))
  | '+' :: rest =>
    if rest.isEmpty then Option.none
    else (digitsValue rest).map (fun n => (n : Int))
  | _ => (digitsValue cs).map (fun n => (n : Int))

def stripSpaces (s : String) : List Char :=
  ((s.data.dropWhile (fun c => c = ' ')).reverse.dropWhile (fun c => c = ' ')).reverse

/-- Python `int(s)` on a string: surrounding whitespace is stripped, then an
optional sign and a non-empty digit run are accepted; anything else raises
`ValueError`.  (Python additionally strips non-space whitespace and allows
underscore digit grouping; no claim involves those, so only spaces and
plain digit runs are modelled.) -/
def pyIntOfString (s : String) : Except PyErr Int :=
  match signedValue (stripSpaces s) with
  | some n => Except.ok n
  | Option.none => Except.error PyErr.valueError

/-- `interval = int(os.getenv("FETCH_INTERVAL", DEFAULT_INTERVAL))`: when
the variable is unset, `int` is applied to the integer default (a no-op);
when it is set, `int` parses the string and may raise `ValueError`. -/
def interval (env : Option String) : Except PyErr Int :=
  match env with
  | Option.none => Except.ok DEFAULT_INTERVAL
  | some s => pyIntOfString s

/-! ## Derived notions used in the claim statements -/

/-- An entry the per-staker loop traverses without raising: a dict whose
`"stake"` is a number and whose `"address"` is present. -/
def isValidEntry : PyVal → Bool
  | .pydict m =>
    (match dlookup m "stake" with
     | some sv => (toNum sv).isSome
     | Option.none => false)
    && (dlookup m "address").isSome
  | _ => false

/-- The stake of a well-formed entry (0 as a don't-care default). -/
def entryStake : PyVal → Int
  | .pydict m => ((dlookup m "stake").bind toNum).getD 0
  | _ => 0

/-- The address field of an entry, when the entry is a dict that has one. -/
def entryAddr : PyVal → Option PyVal
  | .pydict m => dlookup m "address"
  | _ => Option.none

def stakesOf (xs : List PyVal) : List Int := xs.map entryStake

def sumStakes (xs : List PyVal) : Int := (stakesOf xs).sum

/-- The per-staker gauge writes performed by a run of the loop over `xs`
(left to right, one `setStaker` per entry). -/
def writeEntries (m : List (PyVal × Int)) (xs : List PyVal) : List (PyVal × Int) :=
  xs.foldl (fun acc e => setStaker acc ((entryAddr e).getD PyVal.pynone) (entryStake e)) m

/-- The first missing required field of an entry, i.e. the `KeyError` the
loop raises on it: `"stake"` is read first, `"address"` only after the
stake proved numeric. -/
def entryKeyError : PyVal → Option String
  | .pydict m =>
    match dlookup m "stake" with
    | Option.none => some "stake"
    | some sv =>
      match toNum sv with
      | Option.none => Option.none
      | some _ =>
        match dlookup m "address" with
        | Option.none => some "address"
        | some _ => Option.none
  | _ => Option.none

/-- Every address value that a `process_data` run on `data` could write a
per-staker gauge for (the address fields of the entries of the iterated
`stakers` sequence). -/
def respAddresses (data : PyVal) : List PyVal :=
  match data with
  | .pydict kvs =>
    match pyIter (dictGet kvs "stakers" (PyVal.pylist .nil)) with
    | Except.ok items => items.filterMap entryAddr
    | Except.error _ => []
  | _ => []

/-- Python `max` of a non-empty list (`[]` as a don't-care default). -/
def listMax : List Int → Int
  | [] => 0
  | s :: rest => rest.foldl max s

/-- Python `min` of a non-empty list (`[]` as a don't-care default). -/
def listMin : List Int → Int
  | [] => 0
  | s :: rest => rest.foldl min s

def numericPy : PyVal → Bool
  | .pyint _ => true
  | .pybool _ => true
  | _ => false

/-- Price-fetch outcomes whose handling in `main` cannot raise: failures,
bodies whose extracted price is absent or falsy, and numeric prices.  (The
complement — a non-dict body or a truthy non-numeric price — raises out of
the loop.) -/
def priceSafe : NetResult → Bool
  | .transportError => true
  | .response status body =>
    if statusRaises status then true
    else
      match body with
      | Option.none => true
      | some (.pydict kvs) =>
        match dictGet kvs "nimiq-2" (PyVal.pydict .nil) with
        | .pydict kvs2 =>
          match dlookup kvs2 "usd" with
          | Option.none => true
          | some v => !v.truthy || numericPy v
        | _ => false
      | some _ => false

/-- Log lines that only `process_data` emits (about the stakers data). -/
def stakersRelated : LogEvent → Bool
  | .noStakers => true
  | .totals _ _ => true
  | .highest _ => true
  | .lowest _ => true
  | .missingKey _ => true
  | .procError => true
  | _ => false

/-! ## Helper lemmas -/

theorem listV_toList (xs : List PyVal) : (listV xs).toList = xs := by
  induction xs with
  | nil => rfl
  | cons x rest ih => simp [listV, PyListV.toList, ih]

theorem getLast?_append_single {α : Type} (l : List α) (a : α) :
    (l ++ [a]).getLast? = some a := by
  induction l with
  | nil => rfl
  | cons x rest ih =>
    rw [List.cons_append, List.getLast?_cons, ih]
    cases rest <;> simp

theorem lookupStake_setStaker_ne (m : List (PyVal × Int)) (b : PyVal) (v : Int)
    (a : PyVal) (h : b ≠ a) :
    lookupStake (setStaker m b v) a = lookupStake m a := by
  induction m with
  | nil => simp [setStaker, lookupStake, h]
  | cons kv rest ih =>
    obtain ⟨k, w⟩ := kv
    by_cases hk : k = b
    · subst hk
      simp [setStaker, lookupStake, h, ih]
    · simp [setStaker, lookupStake, hk, ih]

theorem lookupStake_setStaker_keeps (m : List (PyVal × Int)) (b : PyVal) (v : Int)
    (a : PyVal) (h : (lookupStake m a).isSome = true) :
    (lookupStake (setStaker m b v) a).isSome = true := by
  induction m with
  | nil => simp [lookupStake] at h
  | cons kv rest ih =>
    obtain ⟨k, w⟩ := kv
    by_cases hk : k = b
    · subst hk
      by_cases hka : k = a
      · simp [setStaker, lookupStake, hka]
      · simp only [lookupStake, if_neg hka] at h
        simp [setStaker, lookupStake, hka, h]
    · by_cases hka : k = a
      · subst hka
        simp [setStaker, lookupStake, hk]
      · simp only [lookupStake, if_neg hka] at h
        simp [setStaker, lookupStake, hk, hka, ih h]

theorem procLoop_fields (xs : List PyVal) : ∀ (t : Int) (s : List Int) (reg : Registry),
    (procLoop xs t s reg).1.totalStake = reg.totalStake ∧
    (procLoop xs t s reg).1.totalStakers = reg.totalStakers ∧
    (procLoop xs t s reg).1.currentPrice = reg.currentPrice := by
  induction xs with
  | nil => intro t s reg; simp [procLoop]
  | cons st rest ih =>
    intro t s reg
    rcases hsv : pyItem st "stake" with e | sv
    · simp [procLoop, hsv]
    · rcases hn : toNum sv with _ | n
      · simp [procLoop, hsv, hn]
      · rcases hav : pyItem st "address" with e | av
        · simp [procLoop, hsv, hn, hav]
        · simpa [procLoop, hsv, hn, hav] using
            ih (t + n) (s ++ [n]) { reg with stakerStake := setStaker reg.stakerStake av n }

theorem procLoop_frame (xs : List PyVal) (a : PyVal)
    (ha : ∀ e ∈ xs, entryAddr e ≠ some a) :
    ∀ (t : Int) (s : List Int) (reg : Registry),
    lookupStake (procLoop xs t s reg).1.stakerStake a = lookupStake reg.stakerStake a := by
  induction xs with
  | nil => intro t s reg; simp [procLoop]
  | cons st rest ih =>
    intro t s reg
    have hrest : ∀ e ∈ rest, entryAddr e ≠ some a := by
      intro e he; exact ha e (List.mem_cons_of_mem _ he)
    cases st with
    | pydict m =>
      rcases hsv : dlookup m "stake" with _ | sv
      · simp [procLoop, pyItem, hsv]
      · rcases hn : toNum sv with _ | n
        · simp [procLoop, pyItem, hsv, hn]
        · rcases hav : dlookup m "address" with _ | av
          · simp [procLoop, pyItem, hsv, hn, hav]
          · have hne : av ≠ a := by
              intro hcontra
              exact ha (PyVal.pydict m) (List.mem_cons_self _ _)
                (by simp [entryAddr, hav, hcontra])
            rw [show procLoop (PyVal.pydict m :: rest) t s reg =
                procLoop rest (t + n) (s ++ [n])
                  { reg with stakerStake := setStaker reg.stakerStake av n } by
              simp [procLoop, pyItem, hsv, hn, hav]]
            rw [ih hrest]
            exact lookupStake_setStaker_ne _ _ _ _ hne
    | pynone => simp [procLoop, pyItem]
    | pybool b => simp [procLoop, pyItem]
    | pyint n => simp [procLoop, pyItem]
    | pystr s1 => simp [procLoop, pyItem]
    | pylist l => simp [procLoop, pyItem]

theorem procLoop_keeps (xs : List PyVal) (a : PyVal) :
    ∀ (t : Int) (s : List Int) (reg : Registry),
    (lookupStake reg.stakerStake a).isSome = true →
    (lookupStake (procLoop xs t s reg).1.stakerStake a).isSome = true := by
  induction xs with
  | nil => intro t s reg h; simpa [procLoop] using h
  | cons st rest ih =>
    intro t s reg h
    rcases hsv : pyItem st "stake" with e | sv
    · simpa [procLoop, hsv] using h
    · rcases hn : toNum sv with _ | n
      · simpa [procLoop, hsv, hn] using h
      · rcases hav : pyItem st "address" with e | av
        · simpa [procLoop, hsv, hn, hav] using h
        · rw [show procLoop (st :: rest) t s reg =
              procLoop rest (t + n) (s ++ [n])
                { reg with stakerStake := setStaker reg.stakerStake av n } by
            simp [procLoop, hsv, hn, hav]]
          exact ih _ _ _ (lookupStake_setStaker_keeps _ _ _ _ h)

theorem validEntry_destruct (e : PyVal) (h : isValidEntry e = true) :
    ∃ m sv s av, e = PyVal.pydict m ∧ dlookup m "stake" = some sv ∧
      toNum sv = some s ∧ dlookup m "address" = some av := by
  cases e with
  | pydict m =>
    rcases hsv : dlookup m "stake" with _ | sv
    · simp [isValidEntry, hsv] at h
    · rcases hn : toNum sv with _ | s
      · simp [isValidEntry, hsv, hn] at h
      · rcases hav : dlookup m "address" with _ | av
        · simp [isValidEntry, hsv, hn, hav] at h
        · exact ⟨m, sv, s, av, rfl, hsv, hn, hav⟩
  | pynone => simp [isValidEntry] at h
  | pybool b => simp [isValidEntry] at h
  | pyint n => simp [isValidEntry] at h
  | pystr s => simp [isValidEntry] at h
  | pylist l => simp [isValidEntry] at h

theorem procLoop_cons_valid (m : PyDictV) (sv : PyVal) (s : Int) (av : PyVal)
    (hsv : dlookup m "stake" = some sv) (hn : toNum sv = some s)
    (hav : dlookup m "address" = some av)
    (rest : List PyVal) (t : Int) (st : List Int) (reg : Registry) :
    procLoop (PyVal.pydict m :: rest) t st reg =
      procLoop rest (t + s) (st ++ [s])
        { reg with stakerStake := setStaker reg.stakerStake av s } := by
  simp [procLoop, pyItem, hsv, hn, hav]

theorem procLoop_append_valid (pre : List PyVal) :
    ∀ (_hv : ∀ e ∈ pre, isValidEntry e = true) (ys : List PyVal) (t : Int)
      (st : List Int) (reg : Registry),
    procLoop (pre ++ ys) t st reg =
      procLoop ys (t + sumStakes pre) (st ++ stakesOf pre)
        { reg with stakerStake := writeEntries reg.stakerStake pre } := by
  induction pre with
  | nil =>
    intro _ ys t st reg
    simp [sumStakes, stakesOf, writeEntries]
  | cons e pre ih =>
    intro hv ys t st reg
    obtain ⟨m, sv, s, av, rfl, hsv, hn, hav⟩ :=
      validEntry_destruct e (hv e (List.mem_cons_self _ _))
    have hes : entryStake (PyVal.pydict m) = s := by simp [entryStake, hsv, hn]
    have hea : entryAddr (PyVal.pydict m) = some av := by simp [entryAddr, hav]
    rw [List.cons_append, procLoop_cons_valid m sv s av hsv hn hav,
      ih (fun e2 he => hv e2 (List.mem_cons_of_mem _ he)) ys]
    have h1 : t + sumStakes (PyVal.pydict m :: pre) = (t + s) + sumStakes pre := by
      simp [sumStakes, stakesOf, hes]
      ring
    have h2 : st ++ stakesOf (PyVal.pydict m :: pre) = (st ++ [s]) ++ stakesOf pre := by
      simp [stakesOf, hes]
    have h3 : writeEntries reg.stakerStake (PyVal.pydict m :: pre) =
        writeEntries (setStaker reg.stakerStake av s) pre := by
      simp [writeEntries, hes, hea]
    rw [h1, h2, h3]

theorem procLoop_valid (xs : List PyVal) (hv : ∀ e ∈ xs, isValidEntry e = true)
    (reg : Registry) :
    procLoop xs 0 [] reg =
      ({ reg with stakerStake := writeEntries reg.stakerStake xs },
       Except.ok (sumStakes xs, stakesOf xs)) := by
  have h := procLoop_append_valid xs hv [] 0 [] reg
  rw [List.append_nil] at h
  rw [h]
  simp [procLoop]

theorem procLoop_keyError (bad : PyVal) (k : String) (hk : entryKeyError bad = some k)
    (rest : List PyVal) (t : Int) (st : List Int) (reg : Registry) :
    procLoop (bad :: rest) t st reg = (reg, Except.error (PyErr.keyError k)) := by
  cases bad with
  | pydict m =>
    rcases hsv : dlookup m "stake" with _ | sv
    · simp [entryKeyError, hsv] at hk
      subst hk
      simp [procLoop, pyItem, hsv]
    · rcases hn : toNum sv with _ | s
      · simp [entryKeyError, hsv, hn] at hk
      · rcases hav : dlookup m "address" with _ | av
        · simp [entryKeyError, hsv, hn, hav] at hk
          subst hk
          simp [procLoop, pyItem, hsv, hn, hav]
        · simp [entryKeyError, hsv, hn, hav] at hk
  | pynone => simp [entryKeyError] at hk
  | pybool b => simp [entryKeyError] at hk
  | pyint n => simp [entryKeyError] at hk
  | pystr s => simp [entryKeyError] at hk
  | pylist l => simp [entryKeyError] at hk

theorem process_data_eq (d : PyVal) (reg : Registry) :
    process_data d reg =
      ((processBody d reg).1,
       (processBody d reg).2.1 ++
         (match (processBody d reg).2.2 with
          | some e => [errLog e]
          | Option.none => [])) := by
  rcases h : processBody d reg with ⟨r, logs, e⟩
  cases e <;> simp [process_data, h]

theorem process_data_valid (kvs : PyDictV) (xs : List PyVal) (reg : Registry)
    (h1 : dictGet kvs "stakers" (PyVal.pylist .nil) = PyVal.pylist (listV xs))
    (h2 : xs ≠ []) (h3 : ∀ e ∈ xs, isValidEntry e = true) :
    process_data (PyVal.pydict kvs) reg =
      (⟨sumStakes xs, writeEntries reg.stakerStake xs, (xs.length : Int),
        reg.currentPrice⟩,
       [LogEvent.totals (sumStakes xs) xs.length,
        LogEvent.highest (listMax (stakesOf xs)),
        LogEvent.lowest (listMin (stakesOf xs))]) := by
  obtain ⟨x, xs', rfl⟩ := List.exists_cons_of_ne_nil h2
  have hb : processBody (PyVal.pydict kvs) reg =
      (⟨sumStakes (x :: xs'), writeEntries reg.stakerStake (x :: xs'),
        ((x :: xs').length : Int), reg.currentPrice⟩,
       [LogEvent.totals (sumStakes (x :: xs')) (x :: xs').length,
        LogEvent.highest (listMax (stakesOf (x :: xs'))),
        LogEvent.lowest (listMin (stakesOf (x :: xs')))],
       Option.none) := by
    show processStakers (dictGet kvs "stakers" (PyVal.pylist .nil)) reg = _
    rw [h1]
    unfold processStakers
    simp [listV, PyVal.truthy, pyIter, PyListV.toList, listV_toList,
      procLoop_valid (x :: xs') h3, stakesOf, listMax, listMin]
  rw [process_data_eq, hb]
  simp

theorem foldl_max_mem (l : List Int) : ∀ a : Int, l.foldl max a = a ∨ l.foldl max a ∈ l := by
  induction l with
  | nil => intro a; exact Or.inl rfl
  | cons b rest ih =>
    intro a
    rcases ih (max a b) with h | h
    · rcases max_choice a b with hm | hm
      · exact Or.inl (by rw [List.foldl_cons, h, hm])
      · exact Or.inr (by rw [List.foldl_cons, h, hm]; exact List.mem_cons_self _ _)
    · exact Or.inr (List.mem_cons_of_mem _ h)

theorem le_foldl_max (l : List Int) : ∀ a x : Int, (x ≤ a ∨ x ∈ l) → x ≤ l.foldl max a := by
  induction l with
  | nil =>
    intro a x h
    rcases h with h | h
    · exact h
    · simp at h
  | cons b rest ih =>
    intro a x h
    rw [List.foldl_cons]
    rcases h with h | h
    · exact ih (max a b) x (Or.inl (le_trans h (le_max_left a b)))
    · rcases List.mem_cons.mp h with h | h
      · exact ih (max a b) x (Or.inl (h ▸ le_max_right a b))
      · exact ih (max a b) x (Or.inr h)

theorem foldl_min_mem (l : List Int) : ∀ a : Int, l.foldl min a = a ∨ l.foldl min a ∈ l := by
  induction l with
  | nil => intro a; exact Or.inl rfl
  | cons b rest ih =>
    intro a
    rcases ih (min a b) with h | h
    · rcases min_choice a b with hm | hm
      · exact Or.inl (by rw [List.foldl_cons, h, hm])
      · exact Or.inr (by rw [List.foldl_cons, h, hm]; exact List.mem_cons_self _ _)
    · exact Or.inr (List.mem_cons_of_mem _ h)

theorem foldl_min_le (l : List Int) : ∀ a x : Int, (a ≤ x ∨ x ∈ l) → l.foldl min a ≤ x := by
  induction l with
  | nil =>
    intro a x h
    rcases h with h | h
    · exact h
    · simp at h
  | cons b rest ih =>
    intro a x h
    rw [List.foldl_cons]
    rcases h with h | h
    · exact ih (min a b) x (Or.inl (le_trans (min_le_left a b) h))
    · rcases List.mem_cons.mp h with h | h
      · exact ih (min a b) x (Or.inl (h ▸ min_le_right a b))
      · exact ih (min a b) x (Or.inr h)

theorem listMax_mem (l : List Int) (h : l ≠ []) : listMax l ∈ l := by
  obtain ⟨s, rest, rfl⟩ := List.exists_cons_of_ne_nil h
  rcases foldl_max_mem rest s with hm | hm
  · rw [listMax, hm]; exact List.mem_cons_self _ _
  · exact List.mem_cons_of_mem _ hm

theorem le_listMax (l : List Int) (x : Int) (hx : x ∈ l) : x ≤ listMax l := by
  cases l with
  | nil => simp at hx
  | cons s rest =>
    rcases List.mem_cons.mp hx with h | h
    · exact le_foldl_max rest s x (Or.inl (le_of_eq h))
    · exact le_foldl_max rest s x (Or.inr h)

theorem listMin_mem (l : List Int) (h : l ≠ []) : listMin l ∈ l := by
  obtain ⟨s, rest, rfl⟩ := List.exists_cons_of_ne_nil h
  rcases foldl_min_mem rest s with hm | hm
  · rw [listMin, hm]; exact List.mem_cons_self _ _
  · exact List.mem_cons_of_mem _ hm

theorem listMin_le (l : List Int) (x : Int) (hx : x ∈ l) : listMin l ≤ x := by
  cases l with
  | nil => simp at hx
  | cons s rest =>
    rcases List.mem_cons.mp hx with h | h
    · exact foldl_min_le rest s x (Or.inl (le_of_eq h.symm))
    · exact foldl_min_le rest s x (Or.inr h)

theorem processStakers_currentPrice (stakers : PyVal) (reg : Registry) :
    (processStakers stakers reg).1.currentPrice = reg.currentPrice := by
  unfold processStakers
  by_cases ht : stakers.truthy = false
  · simp [ht]
  · rcases hit : pyIter stakers with e | items
    · simp [ht, hit]
    · rcases hpl : procLoop items 0 []
        { reg with totalStakers := (items.length : Int) } with ⟨reg2, res⟩
      have h2 : reg2.currentPrice = reg.currentPrice := by
        have := (procLoop_fields items 0 []
          { reg with totalStakers := (items.length : Int) }).2.2
        rw [hpl] at this
        exact this
      rcases res with e | ⟨total, stakes⟩
      · simp [ht, hit, hpl, h2]
      · cases stakes with
        | nil => simp [ht, hit, hpl, h2]
        | cons s rest => simp [ht, hit, hpl, h2]

theorem process_data_currentPrice (d : PyVal) (reg : Registry) :
    (process_data d reg).1.currentPrice = reg.currentPrice := by
  rw [process_data_eq]
  cases d with
  | pydict kvs => exact processStakers_currentPrice _ reg
  | pynone => rfl
  | pybool b => rfl
  | pyint n => rfl
  | pystr s => rfl
  | pylist l => rfl

theorem processStakers_stakerFrame (stakers : PyVal) (reg : Registry) (a : PyVal)
    (ha : ∀ items, pyIter stakers = Except.ok items → ∀ e ∈ items, entryAddr e ≠ some a) :
    lookupStake (processStakers stakers reg).1.stakerStake a =
      lookupStake reg.stakerStake a := by
  unfold processStakers
  by_cases ht : stakers.truthy = false
  · simp [ht]
  · rcases hit : pyIter stakers with e | items
    · simp [ht, hit]
    · rcases hpl : procLoop items 0 []
        { reg with totalStakers := (items.length : Int) } with ⟨reg2, res⟩
      have h2 : lookupStake reg2.stakerStake a = lookupStake reg.stakerStake a := by
        have := procLoop_frame items a (ha items hit) 0 []
          { reg with totalStakers := (items.length : Int) }
        rw [hpl] at this
        exact this
      rcases res with e | ⟨total, stakes⟩
      · simp [ht, hit, hpl, h2]
      · cases stakes with
        | nil => simp [ht, hit, hpl, h2]
        | cons s rest => simp [ht, hit, hpl, h2]

theorem processStakers_stakerKeeps (stakers : PyVal) (reg : Registry) (a : PyVal)
    (h : (lookupStake reg.stakerStake a).isSome = true) :
    (lookupStake (processStakers stakers reg).1.stakerStake a).isSome = true := by
  unfold processStakers
  by_cases ht : stakers.truthy = false
  · simp [ht, h]
  · rcases hit : pyIter stakers with e | items
    · simp [ht, hit, h]
    · rcases hpl : procLoop items 0 []
        { reg with totalStakers := (items.length : Int) } with ⟨reg2, res⟩
      have h2 : (lookupStake reg2.stakerStake a).isSome = true := by
        have := procLoop_keeps items a 0 []
          { reg with totalStakers := (items.length : Int) } h
        rw [hpl] at this
        exact this
      rcases res with e | ⟨total, stakes⟩
      · simp [ht, hit, hpl, h2]
      · cases stakes with
        | nil => simp [ht, hit, hpl, h2]
        | cons s rest => simp [ht, hit, hpl, h2]

theorem cycle_def (regNet priceNet : NetResult) (reg : Registry) :
    cycle regNet priceNet reg =
      ((priceStage (fetch_nimiq_price priceNet).1
          (procStep (fetch_registration_data regNet).1 reg).1).1,
       LogEvent.scraping ::
         ((fetch_registration_data regNet).2 ++
          (procStep (fetch_registration_data regNet).1 reg).2 ++
          (fetch_nimiq_price priceNet).2 ++
          (priceStage (fetch_nimiq_price priceNet).1
            (procStep (fetch_registration_data regNet).1 reg).1).2.1),
       (priceStage (fetch_nimiq_price priceNet).1
         (procStep (fetch_registration_data regNet).1 reg).1).2.2) := rfl

theorem priceStage_frame (pr : Except PyErr (Option PyVal)) (reg : Registry) :
    (priceStage pr reg).1.totalStake = reg.totalStake ∧
    (priceStage pr reg).1.stakerStake = reg.stakerStake ∧
    (priceStage pr reg).1.totalStakers = reg.totalStakers := by
  rcases pr with e | p
  · simp [priceStage]
  · rcases p with _ | v
    · simp [priceStage]
    · by_cases ht : v.truthy = true
      · rcases hg : gaugeFloat v with e | n
        · simp [priceStage, ht, hg]
        · simp [priceStage, ht, hg]
      · simp [priceStage, ht]

theorem priceStage_logs (pr : Except PyErr (Option PyVal)) (reg : Registry)
    (l : LogEvent) (hl : l ∈ (priceStage pr reg).2.1) :
    l = LogEvent.nextScrape ∨ ∃ w, l = LogEvent.currentPrice w := by
  rcases pr with e | p
  · simp [priceStage] at hl
  · rcases p with _ | v
    · simp [priceStage] at hl
      exact Or.inl hl
    · by_cases ht : v.truthy = true
      · rcases hg : gaugeFloat v with e | n
        · simp [priceStage, ht, hg] at hl
        · simp [priceStage, ht, hg] at hl
          rcases hl with hl | hl
          · exact Or.inr ⟨v, hl⟩
          · exact Or.inl hl
      · simp [priceStage, ht] at hl
        exact Or.inl hl

theorem fetch_price_logs (net : NetResult) :
    (fetch_nimiq_price net).2 = [] ∨ (fetch_nimiq_price net).2 = [LogEvent.priceError] := by
  cases net with
  | transportError => exact Or.inr rfl
  | response st body =>
    by_cases hst : statusRaises st = true
    · simp [fetch_nimiq_price, hst]
    · have hst' : statusRaises st = false := by
        exact Bool.not_eq_true _ ▸ Bool.of_not_eq_true hst
      rcases body with _ | v
      · simp [fetch_nimiq_price, hst']
      · cases v with
        | pydict kvs =>
          cases hd2 : dictGet kvs "nimiq-2" (PyVal.pydict .nil) with
          | pydict kvs2 => simp [fetch_nimiq_price, hst', hd2]
          | pynone => simp [fetch_nimiq_price, hst', hd2]
          | pybool b => simp [fetch_nimiq_price, hst', hd2]
          | pyint n => simp [fetch_nimiq_price, hst', hd2]
          | pystr s => simp [fetch_nimiq_price, hst', hd2]
          | pylist l2 => simp [fetch_nimiq_price, hst', hd2]
        | pynone => simp [fetch_nimiq_price, hst']
        | pybool b => simp [fetch_nimiq_price, hst']
        | pyint n => simp [fetch_nimiq_price, hst']
        | pystr s => simp [fetch_nimiq_price, hst']
        | pylist l => simp [fetch_nimiq_price, hst']

theorem fetch_price_safe (net : NetResult) (hs : priceSafe net = true) :
    ∃ p, (fetch_nimiq_price net).1 = Except.ok p ∧
      (∀ v, p = some v → v.truthy = true → ∃ n, gaugeFloat v = Except.ok n) := by
  cases net with
  | transportError =>
    refine ⟨Option.none, rfl, ?_⟩
    intro v hv; cases hv
  | response st body =>
    by_cases hst : statusRaises st = true
    · refine ⟨Option.none, by simp [fetch_nimiq_price, hst], ?_⟩
      intro v hv; cases hv
    · have hst' : statusRaises st = false := by
        exact Bool.not_eq_true _ ▸ Bool.of_not_eq_true hst
      rcases body with _ | v
      · refine ⟨Option.none, by simp [fetch_nimiq_price, hst'], ?_⟩
        intro v hv; cases hv
      · cases v with
        | pydict kvs =>
          cases hd2 : dictGet kvs "nimiq-2" (PyVal.pydict .nil) with
          | pydict kvs2 =>
            refine ⟨dlookup kvs2 "usd", by simp [fetch_nimiq_price, hst', hd2], ?_⟩
            intro v0 hv0 htr
            simp [priceSafe, hst', hd2, hv0, htr] at hs
            cases v0 with
            | pyint n => exact ⟨n, rfl⟩
            | pybool b => exact ⟨if b then 1 else 0, rfl⟩
            | pynone => simp [numericPy] at hs
            | pystr s => simp [numericPy] at hs
            | pylist l2 => simp [numericPy] at hs
            | pydict d2 => simp [numericPy] at hs
          | pynone => simp [priceSafe, hst', hd2] at hs
          | pybool b => simp [priceSafe, hst', hd2] at hs
          | pyint n => simp [priceSafe, hst', hd2] at hs
          | pystr s => simp [priceSafe, hst', hd2] at hs
          | pylist l2 => simp [priceSafe, hst', hd2] at hs
        | pynone => simp [priceSafe, hst'] at hs
        | pybool b => simp [priceSafe, hst'] at hs
        | pyint n => simp [priceSafe, hst'] at hs
        | pystr s => simp [priceSafe, hst'] at hs
        | pylist l => simp [priceSafe, hst'] at hs

theorem priceStage_safe (net : NetResult) (hs : priceSafe net = true) (reg : Registry) :
    ∃ r2 front, priceStage (fetch_nimiq_price net).1 reg =
      (r2, front ++ [LogEvent.nextScrape], Option.none) := by
  obtain ⟨p, hp, hnum⟩ := fetch_price_safe net hs
  rw [hp]
  rcases p with _ | v
  · exact ⟨reg, [], by simp [priceStage]⟩
  · by_cases ht : v.truthy = true
    · obtain ⟨n, hn⟩ := hnum v rfl ht
      exact ⟨{ reg with currentPrice := n }, [LogEvent.currentPrice v],
        by simp [priceStage, ht, hn]⟩
    · exact ⟨reg, [], by simp [priceStage, ht]⟩

theorem procStep_currentPrice (data : Option PyVal) (reg : Registry) :
    (procStep data reg).1.currentPrice = reg.currentPrice := by
  rcases data with _ | d
  · rfl
  · by_cases ht : d.truthy = true
    · simpa [procStep, ht] using process_data_currentPrice d reg
    · simp [procStep, ht]

/-! ## Concrete fixtures used by witnesses and counterexamples -/

/-- A well-formed staker entry: address "A", stake 100. -/
def entryA : PyVal := .pydict (dictV [("address", .pystr "A"), ("stake", .pyint 100)])

/-- A well-formed staker entry: address "B", stake 50. -/
def entryB : PyVal := .pydict (dictV [("address", .pystr "B"), ("stake", .pyint 50)])

/-- A malformed staker entry: it has an address but no stake field. -/
def entryNoStake : PyVal := .pydict (dictV [("address", .pystr "C")])

/-- The spec's end-to-end example response. -/
def goodKvs : PyDictV := dictV [("stakers", .pylist (listV [entryA, entryB]))]

/-- A response whose second entry is missing its stake field. -/
def badKvs : PyDictV := dictV [("stakers", .pylist (listV [entryA, entryNoStake]))]

/-- A registry with non-default prior values in every slot. -/
def regPrior : Registry := ⟨5, [(.pystr "Z", 3)], 7, 2⟩

/-- A successful price response whose quoted price is 0. -/
def priceNetZero : NetResult :=
  .response 200 (some (.pydict (dictV [("nimiq-2", .pydict (dictV [("usd", .pyint 0)]))])))

/-- A successful price response quoting 7. -/
def priceNetSeven : NetResult :=
  .response 200 (some (.pydict (dictV [("nimiq-2", .pydict (dictV [("usd", .pyint 7)]))])))

/-- A successful price response whose JSON body is a list, not an object. -/
def badPriceNet : NetResult := .response 200 (some (.pylist (listV [.pyint 1])))

theorem truthy_listV_ne_nil (ys : List PyVal) (h : ys ≠ []) :
    (PyVal.pylist (listV ys)).truthy = true := by
  obtain ⟨y, ys', rfl⟩ := List.exists_cons_of_ne_nil h
  simp [listV, PyVal.truthy]

/-! ## Claims -/

/-- C1 (counterexample): on the response
`{"stakers": [{"address": "A", "stake": 100}, {"address": "C"}]}` — whose
second entry is missing `stake` — `process_data` is not all-or-nothing: a
malformed-entry log is emitted and `totalStake` keeps its prior value, but
`totalStakers` is overwritten (7 becomes 2) and the first entry's
per-staker gauge is written, refuting "updates no registry slot for that
cycle". -/
theorem c1_counterexample :
    (process_data (PyVal.pydict badKvs) regPrior).2 = [LogEvent.missingKey "stake"] ∧
    (process_data (PyVal.pydict badKvs) regPrior).1.totalStakers = 2 ∧
    regPrior.totalStakers = 7 ∧
    lookupStake (process_data (PyVal.pydict badKvs) regPrior).1.stakerStake
      (PyVal.pystr "A") = some 100 ∧
    lookupStake regPrior.stakerStake (PyVal.pystr "A") = Option.none := by
  decide

/-- C1 (amended): on a response whose stakers list is a valid run of entries
followed by an entry missing `stake` or `address`, `process_data` leaves
`totalStake` at its prior value and logs the missing key, but it sets
`totalStakers` to the full length of the list and overwrites the
per-staker gauges of the entries before the malformed one. -/
theorem c1_malformed_partial (kvs : PyDictV) (pre : List PyVal) (bad : PyVal)
    (rest : List PyVal) (k : String) (reg : Registry)
    (h1 : dictGet kvs "stakers" (PyVal.pylist .nil) =
      PyVal.pylist (listV (pre ++ bad :: rest)))
    (hpre : ∀ e ∈ pre, isValidEntry e = true)
    (hbad : entryKeyError bad = some k) :
    (process_data (PyVal.pydict kvs) reg).1.totalStake = reg.totalStake ∧
    (process_data (PyVal.pydict kvs) reg).1.totalStakers =
      ((pre ++ bad :: rest).length : Int) ∧
    (process_data (PyVal.pydict kvs) reg).1.stakerStake =
      writeEntries reg.stakerStake pre ∧
    (process_data (PyVal.pydict kvs) reg).2 = [LogEvent.missingKey k] := by
  have hb : processBody (PyVal.pydict kvs) reg =
      (⟨reg.totalStake, writeEntries reg.stakerStake pre,
        ((pre ++ bad :: rest).length : Int), reg.currentPrice⟩,
       [], some (PyErr.keyError k)) := by
    show processStakers (dictGet kvs "stakers" (PyVal.pylist .nil)) reg = _
    rw [h1]
    unfold processStakers
    rw [truthy_listV_ne_nil _ (by simp)]
    simp only [pyIter, listV_toList, Bool.true_eq_false, if_false]
    rw [procLoop_append_valid pre hpre, procLoop_keyError bad k hbad]
  rw [process_data_eq, hb]
  exact ⟨rfl, rfl, rfl, rfl⟩

/-- C1 (amended, witness): the amended statement evaluated on the concrete
malformed response and a registry with prior values. -/
theorem c1_malformed_partial_witness :
    (process_data (PyVal.pydict badKvs) regPrior).1.totalStake = regPrior.totalStake ∧
    (process_data (PyVal.pydict badKvs) regPrior).1.totalStakers =
      (([entryA] ++ entryNoStake :: []).length : Int) ∧
    (process_data (PyVal.pydict badKvs) regPrior).1.stakerStake =
      writeEntries regPrior.stakerStake [entryA] ∧
    (process_data (PyVal.pydict badKvs) regPrior).2 =
      [LogEvent.missingKey "stake"] :=
  c1_malformed_partial badKvs [entryA] entryNoStake [] "stake" regPrior rfl
    (by decide) (by decide)

/-- C2: for every valid non-empty staker list, the value written to the
`total_stake` gauge is the sum of the `stake` fields and the value written
to `total_stakers` is the length of the list. -/
theorem c2_totals (kvs : PyDictV) (xs : List PyVal) (reg : Registry)
    (h1 : dictGet kvs "stakers" (PyVal.pylist .nil) = PyVal.pylist (listV xs))
    (h2 : xs ≠ []) (h3 : ∀ e ∈ xs, isValidEntry e = true) :
    (process_data (PyVal.pydict kvs) reg).1.totalStake = sumStakes xs ∧
    (process_data (PyVal.pydict kvs) reg).1.totalStakers = (xs.length : Int) := by
  rw [process_data_valid kvs xs reg h1 h2 h3]
  exact ⟨rfl, rfl⟩

/-- C2 (witness): on the spec's two-entry example the gauges receive 150
and 2. -/
theorem c2_totals_witness :
    (process_data (PyVal.pydict goodKvs) Registry.init).1.totalStake = 150 ∧
    (process_data (PyVal.pydict goodKvs) Registry.init).1.totalStakers = 2 := by
  have h := c2_totals goodKvs [entryA, entryB] Registry.init rfl (by decide) (by decide)
  exact ⟨by rw [h.1]; decide, by rw [h.2]; decide⟩

/-- C3: for every valid non-empty staker list, the computed highest stake
bounds every stake from above, the computed lowest bounds every stake from
below, and both are stakes of actual entries of the input. -/
theorem c3_extremes (kvs : PyDictV) (xs : List PyVal) (reg : Registry)
    (h1 : dictGet kvs "stakers" (PyVal.pylist .nil) = PyVal.pylist (listV xs))
    (h2 : xs ≠ []) (h3 : ∀ e ∈ xs, isValidEntry e = true) :
    ∃ hi lo,
      (process_data (PyVal.pydict kvs) reg).2 =
        [LogEvent.totals (sumStakes xs) xs.length,
         LogEvent.highest hi, LogEvent.lowest lo] ∧
      hi ∈ stakesOf xs ∧ lo ∈ stakesOf xs ∧
      ∀ s ∈ stakesOf xs, lo ≤ s ∧ s ≤ hi := by
  rw [process_data_valid kvs xs reg h1 h2 h3]
  have hne : stakesOf xs ≠ [] := by
    intro hc
    unfold stakesOf at hc
    exact h2 (List.map_eq_nil_iff.mp hc)
  refine ⟨listMax (stakesOf xs), listMin (stakesOf xs), rfl,
    listMax_mem _ hne, listMin_mem _ hne, ?_⟩
  intro s hs
  exact ⟨listMin_le _ s hs, le_listMax _ s hs⟩

/-- C3 (witness): the bounds evaluated on the spec's two-entry example. -/
theorem c3_extremes_witness :
    ∃ hi lo,
      (process_data (PyVal.pydict goodKvs) Registry.init).2 =
        [LogEvent.totals (sumStakes [entryA, entryB]) 2,
         LogEvent.highest hi, LogEvent.lowest lo] ∧
      hi ∈ stakesOf [entryA, entryB] ∧ lo ∈ stakesOf [entryA, entryB] ∧
      ∀ s ∈ stakesOf [entryA, entryB], lo ≤ s ∧ s ≤ hi :=
  c3_extremes goodKvs [entryA, entryB] Registry.init rfl (by decide) (by decide)

/-- C4 (counterexample): a successfully fetched body `{}` has no `stakers`
field, and the cycle indeed leaves the registry untouched — but it produces
no informational no-stakers log at all, because the empty dict is falsy and
`main` never calls `process_data` on it.  This refutes the claim's "and
produces an informational log message" for this response. -/
theorem c4_counterexample :
    dlookup PyDictV.nil "stakers" = Option.none ∧
    (cycle (NetResult.response 200 (some (PyVal.pydict PyDictV.nil)))
        NetResult.transportError regPrior).1 = regPrior ∧
    (cycle (NetResult.response 200 (some (PyVal.pydict PyDictV.nil)))
        NetResult.transportError regPrior).2.1 =
      [LogEvent.scraping, LogEvent.priceError, LogEvent.nextScrape] ∧
    LogEvent.noStakers ∉
      (cycle (NetResult.response 200 (some (PyVal.pydict PyDictV.nil)))
        NetResult.transportError regPrior).2.1 := by
  decide

/-- C4 (amended): for every successfully fetched body that is a *non-empty*
dict whose `stakers` field is absent or the empty list, the cycle leaves
the three registration gauges unmodified and logs the informational
no-stakers message; for the body `{}` the gauges are likewise unmodified
but no such log is produced (the falsy body skips `process_data`). -/
theorem c4_empty_stakers (kvs : PyDictV) (st : Nat) (priceNet : NetResult)
    (reg : Registry)
    (hok : statusRaises st = false)
    (hne : kvs ≠ PyDictV.nil)
    (hst : dlookup kvs "stakers" = Option.none ∨
           dlookup kvs "stakers" = some (PyVal.pylist PyListV.nil)) :
    (cycle (NetResult.response st (some (PyVal.pydict kvs))) priceNet reg).1.totalStake
      = reg.totalStake ∧
    (cycle (NetResult.response st (some (PyVal.pydict kvs))) priceNet reg).1.stakerStake
      = reg.stakerStake ∧
    (cycle (NetResult.response st (some (PyVal.pydict kvs))) priceNet reg).1.totalStakers
      = reg.totalStakers ∧
    LogEvent.noStakers ∈
      (cycle (NetResult.response st (some (PyVal.pydict kvs))) priceNet reg).2.1 := by
  have hd : dictGet kvs "stakers" (PyVal.pylist .nil) = PyVal.pylist PyListV.nil := by
    rcases hst with h | h <;> simp [dictGet, h]
  have htr : (PyVal.pydict kvs).truthy = true := by
    cases kvs with
    | nil => exact absurd rfl hne
    | cons k v rest => rfl
  have hpd : process_data (PyVal.pydict kvs) reg = (reg, [LogEvent.noStakers]) := by
    rw [process_data_eq]
    have hb : processBody (PyVal.pydict kvs) reg =
        (reg, [LogEvent.noStakers], Option.none) := by
      show processStakers (dictGet kvs "stakers" (PyVal.pylist .nil)) reg = _
      rw [hd]
      rfl
    rw [hb]
    rfl
  have hf : fetch_registration_data (NetResult.response st (some (PyVal.pydict kvs))) =
      (some (PyVal.pydict kvs), []) := by
    simp [fetch_registration_data, hok]
  have hps : procStep (fetch_registration_data
      (NetResult.response st (some (PyVal.pydict kvs)))).1 reg =
      (reg, [LogEvent.noStakers]) := by
    rw [hf]
    simp [procStep, htr, hpd]
  rw [cycle_def, hps]
  refine ⟨(priceStage_frame _ _).1, (priceStage_frame _ _).2.1,
    (priceStage_frame _ _).2.2, ?_⟩
  rw [hf]
  simp

/-- C4 (amended, witness): evaluated on a non-empty body without a
`stakers` field. -/
theorem c4_empty_stakers_witness :
    (cycle (NetResult.response 200 (some (PyVal.pydict (dictV [("other", PyVal.pyint 1)]))))
        NetResult.transportError regPrior).1.totalStake = regPrior.totalStake ∧
    (cycle (NetResult.response 200 (some (PyVal.pydict (dictV [("other", PyVal.pyint 1)]))))
        NetResult.transportError regPrior).1.stakerStake = regPrior.stakerStake ∧
    (cycle (NetResult.response 200 (some (PyVal.pydict (dictV [("other", PyVal.pyint 1)]))))
        NetResult.transportError regPrior).1.totalStakers = regPrior.totalStakers ∧
    LogEvent.noStakers ∈
      (cycle (NetResult.response 200 (some (PyVal.pydict (dictV [("other", PyVal.pyint 1)]))))
        NetResult.transportError regPrior).2.1 :=
  c4_empty_stakers (dictV [("other", PyVal.pyint 1)]) 200 NetResult.transportError
    regPrior (by decide) (by decide) (Or.inl (by decide))

/-- C5 (counterexample): a successful price fetch that returns the decimal
value 0 does not overwrite the gauge — `if price:` treats 0 as false — so
`currentPrice` keeps its prior value 2 instead of the fetched 0, refuting
"if the price fetch succeeds the currentPrice gauge is overwritten with
exactly the fetched decimal value". -/
theorem c5_counterexample :
    (fetch_nimiq_price priceNetZero).1 = Except.ok (some (PyVal.pyint 0)) ∧
    (cycle NetResult.transportError priceNetZero regPrior).1.currentPrice = 2 ∧
    regPrior.currentPrice = 2 ∧ (2 : Int) ≠ 0 :=
  ⟨rfl, rfl, rfl, by decide⟩

/-- C5 (amended): in every cycle, if the price fetch fails or yields an
absent or falsy value (including the decimal 0), `currentPrice` keeps its
prior value; if it succeeds with a nonzero integer, the gauge is
overwritten with exactly that value. -/
theorem c5_price_policy (regNet priceNet : NetResult) (reg : Registry) :
    (∀ p, (fetch_nimiq_price priceNet).1 = Except.ok p →
      (p = Option.none ∨ ∃ v, p = some v ∧ v.truthy = false) →
      (cycle regNet priceNet reg).1.currentPrice = reg.currentPrice) ∧
    (∀ n, (fetch_nimiq_price priceNet).1 = Except.ok (some (PyVal.pyint n)) →
      n ≠ 0 →
      (cycle regNet priceNet reg).1.currentPrice = n) := by
  have hpc := procStep_currentPrice (fetch_registration_data regNet).1 reg
  constructor
  · intro p hp hfalsy
    rw [cycle_def, hp]
    rcases hfalsy with rfl | ⟨v, rfl, hv⟩
    · simpa [priceStage] using hpc
    · simpa [priceStage, hv] using hpc
  · intro n hp hn
    rw [cycle_def, hp]
    have ht : (PyVal.pyint n).truthy = true := by
      simp [PyVal.truthy, hn]
    simp [priceStage, ht, gaugeFloat]

/-- C5 (amended, witness): a successful fetch of the nonzero price 7
overwrites the gauge with 7. -/
theorem c5_price_policy_witness :
    (cycle NetResult.transportError priceNetSeven regPrior).1.currentPrice = 7 :=
  (c5_price_policy NetResult.transportError priceNetSeven regPrior).2 7 rfl
    (by decide)

/-- C6 (counterexample): a 200 response whose body is the valid-JSON but
wrongly-shaped value `[1]` is returned as-is by `fetch_registration_data`
instead of being converted into a fetch failure, refuting "returns a
parse-error failure rather than a partially-populated or wrongly-shaped
value". -/
theorem c6_counterexample :
    fetch_registration_data
        (NetResult.response 200 (some (PyVal.pylist (listV [PyVal.pyint 1])))) =
      (some (PyVal.pylist (listV [PyVal.pyint 1])), []) ∧
    some (PyVal.pylist (listV [PyVal.pyint 1])) ≠ (Option.none : Option PyVal) := by
  decide

/-- C6 (amended): the registration fetch returns a failure (`None` plus an
error log) and never raises on transport failure, on a 4xx/5xx status, and
on a body that is not valid JSON; but on an accepted status with a valid
JSON body it returns the parsed value as-is whatever its shape — shape
errors are not converted into fetch failures and surface later in
`process_data`. -/
theorem c6_fetch_policy (st : Nat) (body : Option PyVal) (v : PyVal) :
    (fetch_registration_data NetResult.transportError =
      (Option.none, [LogEvent.fetchError])) ∧
    (statusRaises st = true →
      fetch_registration_data (NetResult.response st body) =
        (Option.none, [LogEvent.fetchError])) ∧
    (statusRaises st = false →
      fetch_registration_data (NetResult.response st Option.none) =
        (Option.none, [LogEvent.fetchError])) ∧
    (statusRaises st = false →
      fetch_registration_data (NetResult.response st (some v)) = (some v, [])) := by
  refine ⟨rfl, ?_, ?_, ?_⟩ <;> intro h <;> simp [fetch_registration_data, h]

/-- C6 (amended, witness): a 500 response is a failure; a 200 response with
a wrongly-shaped body is returned as-is. -/
theorem c6_fetch_policy_witness :
    fetch_registration_data (NetResult.response 500 (some (PyVal.pylist .nil))) =
      (Option.none, [LogEvent.fetchError]) ∧
    fetch_registration_data (NetResult.response 200 (some (PyVal.pylist .nil))) =
      (some (PyVal.pylist .nil), []) :=
  ⟨(c6_fetch_policy 500 (some (PyVal.pylist .nil)) (PyVal.pylist .nil)).2.1
      (by decide),
   (c6_fetch_policy 200 (some (PyVal.pylist .nil)) (PyVal.pylist .nil)).2.2.2
      (by decide)⟩

/-- C7 (counterexample): with the registration fetch failing on a transport
error and the price response being the valid-JSON body `[1]`, the
`.get("nimiq-2", {})` call in `fetch_nimiq_price` raises `AttributeError`,
which no handler catches: the iteration ends with an escaping exception and
never reaches the `Next scrape` log or the sleep, refuting "one iteration
of the scheduler loop completes ... for every fetch outcome". -/
theorem c7_counterexample :
    (cycle NetResult.transportError badPriceNet regPrior).2.2 =
      some PyErr.attributeError ∧
    (cycle NetResult.transportError badPriceNet regPrior).2.1 =
      [LogEvent.scraping, LogEvent.fetchError] ∧
    LogEvent.nextScrape ∉ (cycle NetResult.transportError badPriceNet regPrior).2.1 := by
  decide

theorem getLast?_cons_append_append {α : Type} (a : α) (y front : List α) (z : α) :
    (a :: (y ++ (front ++ [z]))).getLast? = some z := by
  have h : a :: (y ++ (front ++ [z])) = (a :: (y ++ front)) ++ [z] := by simp
  rw [h]
  exact getLast?_append_single _ _

/-- C7 (amended): every failure inside `process_data` is caught there, so
for every registration fetch outcome — including arbitrary malformed bodies
and transport errors — and every price fetch outcome whose handling cannot
raise (failure, absent/falsy price, or a numeric price), the iteration
completes: no exception escapes and the last log line is the `Next scrape`
message preceding the sleep.  A price response whose body is not a dict (or
whose extracted price is a truthy non-number) escapes instead. -/
theorem c7_cycle_completes (regNet priceNet : NetResult) (reg : Registry)
    (hs : priceSafe priceNet = true) :
    (cycle regNet priceNet reg).2.2 = Option.none ∧
    ((cycle regNet priceNet reg).2.1).getLast? = some LogEvent.nextScrape := by
  obtain ⟨r2, front, hps⟩ :=
    priceStage_safe priceNet hs (procStep (fetch_registration_data regNet).1 reg).1
  rw [cycle_def, hps]
  exact ⟨rfl, getLast?_cons_append_append _ _ _ _⟩

/-- C7 (amended, witness): with a registration transport error and a price
transport error the iteration completes and ends at the next-scrape log. -/
theorem c7_cycle_completes_witness :
    (cycle NetResult.transportError NetResult.transportError regPrior).2.2 =
      Option.none ∧
    ((cycle NetResult.transportError NetResult.transportError regPrior).2.1).getLast? =
      some LogEvent.nextScrape :=
  c7_cycle_completes NetResult.transportError NetResult.transportError regPrior
    (by decide)

/-- C8: `process_data` never removes a per-staker gauge entry (an address
with a last-known stake keeps some value after any later cycle), and an
entry whose address does not appear among the addresses of the new
response's entries is left exactly unchanged — stale entries persist until
the same address reappears. -/
theorem c8_staker_persistence (data : PyVal) (reg : Registry) (a : PyVal) :
    (∀ v, lookupStake reg.stakerStake a = some v →
      (lookupStake (process_data data reg).1.stakerStake a).isSome = true) ∧
    (a ∉ respAddresses data →
      lookupStake (process_data data reg).1.stakerStake a =
        lookupStake reg.stakerStake a) := by
  rw [process_data_eq]
  constructor
  · intro v hv
    have hsome : (lookupStake reg.stakerStake a).isSome = true := by rw [hv]; rfl
    cases data with
    | pydict kvs => exact processStakers_stakerKeeps _ reg a hsome
    | pynone => exact hsome
    | pybool b => exact hsome
    | pyint n => exact hsome
    | pystr s => exact hsome
    | pylist l => exact hsome
  · intro ha
    cases data with
    | pydict kvs =>
      apply processStakers_stakerFrame
      intro items hit e he hea
      apply ha
      have hr : respAddresses (PyVal.pydict kvs) = List.filterMap entryAddr items := by
        show (match pyIter (dictGet kvs "stakers" (PyVal.pylist .nil)) with
          | Except.ok items2 => List.filterMap entryAddr items2
          | Except.error _ => []) = _
        rw [hit]
      rw [hr]
      exact List.mem_filterMap.mpr ⟨e, he, hea⟩
    | pynone => rfl
    | pybool b => rfl
    | pyint n => rfl
    | pystr s => rfl
    | pylist l => rfl

/-- C8 (witness): the prior entry for address "Z" survives, unchanged, a
cycle whose response only mentions address "A". -/
theorem c8_staker_persistence_witness :
    (lookupStake (process_data
        (PyVal.pydict (dictV [("stakers", PyVal.pylist (listV [entryA]))]))
        regPrior).1.stakerStake (PyVal.pystr "Z")).isSome = true ∧
    lookupStake (process_data
        (PyVal.pydict (dictV [("stakers", PyVal.pylist (listV [entryA]))]))
        regPrior).1.stakerStake (PyVal.pystr "Z") =
      lookupStake regPrior.stakerStake (PyVal.pystr "Z") :=
  ⟨(c8_staker_persistence
      (PyVal.pydict (dictV [("stakers", PyVal.pylist (listV [entryA]))]))
      regPrior (PyVal.pystr "Z")).1 3 (by decide),
   (c8_staker_persistence
      (PyVal.pydict (dictV [("stakers", PyVal.pylist (listV [entryA]))]))
      regPrior (PyVal.pystr "Z")).2 (by decide)⟩

/-- C9 (counterexample): `FETCH_INTERVAL` set to `"0"` yields the interval
0, which is not positive — `int()` is applied with no validation — refuting
"whenever FETCH_INTERVAL is set, the resulting interval is a positive
integer". -/
theorem c9_counterexample :
    interval (some "0") = Except.ok 0 ∧ ¬ (0 : Int) > 0 := by
  constructor
  · rfl
  · decide

/-- C9 (amended): with the variables unset, the address is the fixed
default example address and the interval is 300 seconds; when
`FETCH_INTERVAL` is set, the interval is `int(value)` with no positivity
check — any integer string is accepted, including zero and negatives, and
a non-integer string raises `ValueError` at startup. -/
theorem c9_config_defaults :
    address Option.none = DEFAULT_ADDRESS ∧
    interval Option.none = Except.ok 300 ∧
    interval (some "45") = Except.ok 45 ∧
    interval (some "0") = Except.ok 0 ∧
    interval (some "-7") = Except.ok (-7) ∧
    interval (some "abc") = Except.error PyErr.valueError :=
  ⟨rfl, rfl, rfl, rfl, rfl, rfl⟩

/-- C10: a successfully fetched body that parses to a falsy value (`{}`,
`null`, `0`, `[]`, `""`) is treated like a fetch failure: the three
registration gauges keep their prior values — the registry ends exactly as
it would after a transport error — and no stakers-related log line is
produced, while the cycle still proceeds to the price stage. -/
theorem c10_falsy_body_skip (st : Nat) (v : PyVal) (priceNet : NetResult)
    (reg : Registry)
    (hok : statusRaises st = false) (hft : v.truthy = false) :
    (cycle (NetResult.response st (some v)) priceNet reg).1 =
      (cycle NetResult.transportError priceNet reg).1 ∧
    (cycle (NetResult.response st (some v)) priceNet reg).1.totalStake
      = reg.totalStake ∧
    (cycle (NetResult.response st (some v)) priceNet reg).1.stakerStake
      = reg.stakerStake ∧
    (cycle (NetResult.response st (some v)) priceNet reg).1.totalStakers
      = reg.totalStakers ∧
    ∀ l ∈ (cycle (NetResult.response st (some v)) priceNet reg).2.1,
      stakersRelated l = false := by
  have hf : fetch_registration_data (NetResult.response st (some v)) = (some v, []) := by
    simp [fetch_registration_data, hok]
  have hp : procStep (fetch_registration_data (NetResult.response st (some v))).1 reg =
      (reg, []) := by
    rw [hf]
    simp [procStep, hft]
  refine ⟨?_, ?_, ?_, ?_, ?_⟩
  · rw [cycle_def, cycle_def, hp]
    rfl
  · rw [cycle_def, hp]
    exact (priceStage_frame _ _).1
  · rw [cycle_def, hp]
    exact (priceStage_frame _ _).2.1
  · rw [cycle_def, hp]
    exact (priceStage_frame _ _).2.2
  · rw [cycle_def, hp, hf]
    intro l hl
    simp only [List.mem_cons, List.nil_append, List.mem_append] at hl
    rcases hl with rfl | hl
    · rfl
    · rcases hl with hl | hl
      · rcases fetch_price_logs priceNet with h | h <;> rw [h] at hl
        · simp at hl
        · simp at hl
          subst hl
          rfl
      · rcases priceStage_logs _ _ _ hl with rfl | ⟨w, rfl⟩ <;> rfl

/-- C10 (witness): the falsy body `0` leaves the registry as a transport
error would and still lets the price stage write the quoted price 7. -/
theorem c10_falsy_body_skip_witness :
    (cycle (NetResult.response 200 (some (PyVal.pyint 0))) priceNetSeven regPrior).1 =
      (cycle NetResult.transportError priceNetSeven regPrior).1 ∧
    (cycle (NetResult.response 200 (some (PyVal.pyint 0))) priceNetSeven regPrior).1.totalStake
      = regPrior.totalStake ∧
    (cycle (NetResult.response 200 (some (PyVal.pyint 0))) priceNetSeven regPrior).1.stakerStake
      = regPrior.stakerStake ∧
    (cycle (NetResult.response 200 (some (PyVal.pyint 0))) priceNetSeven regPrior).1.totalStakers
      = regPrior.totalStakers ∧
    ∀ l ∈ (cycle (NetResult.response 200 (some (PyVal.pyint 0))) priceNetSeven regPrior).2.1,
      stakersRelated l = false :=
  c10_falsy_body_skip 200 (PyVal.pyint 0) priceNetSeven regPrior (by decide) (by decide)

end PreStake
